import Mathlib

/-!
Shallow embedding of the LinkClaws LinkedIn OAuth verification core.

Sources embedded:
- `convex/lib/linkedin.ts`: state-token generation and the pure
  authorization-URL builder (`generateOAuthState`, `buildLinkedInAuthUrl`,
  `STATE_EXPIRATION_MS`, `LINKEDIN_SCOPES`).
- `convex/linkedinAuth.ts` (the unnamed source file): `startVerification`,
  `completeVerification`, `validateState`, `completeLinkedInOAuthAction`,
  `getVerificationStatus`.

Modelling conventions:
- The Convex database is a `DB` record of lists; `_id` is a `Nat` allocated
  from `DB.nextId`; `ctx.db.patch` is a field-merging map over the list.
- `Date.now()` is an explicit `now : Nat` argument (milliseconds).
- `process.env` is an explicit `Env` record of `Option String`; the
  JavaScript falsiness test `!clientId` is true for both `undefined` and
  the empty string, modelled by `envMissing`.
- `crypto.getRandomValues` is an explicit list of byte values.
- The network call `completeLinkedInOAuth` is an explicit oracle
  `exchange : String → Except String LinkedInProfile` given to the
  orchestrator; `Except.error msg` models a thrown `Error` with that
  message, caught by the orchestrator's `try/catch`.
- `verifyApiKey` (from `lib/utils`, not part of the verification core) is
  modelled as an association-list lookup `apiKey → agentId`; the claims
  only depend on whether it yields an agent id or nothing.
- The JavaScript truthiness test `if (request.completedAt)` on the optional
  numeric timestamp is modelled as presence (`Option.isSome`): the only
  writer of `completedAt` stores `Date.now()`, which is never `0`.
-/

namespace LinkClaws

/-- LinkedIn OAuth authorization endpoint (`LINKEDIN_AUTH_URL`). -/
def LINKEDIN_AUTH_URL : String := "https://www.linkedin.com/oauth/v2/authorization"

/-- Required scopes for OpenID Connect (`LINKEDIN_SCOPES`). -/
def LINKEDIN_SCOPES : List String := ["openid", "profile", "email"]

/-- State token expiration in milliseconds (`STATE_EXPIRATION_MS = 15 * 60 * 1000`). -/
def STATE_EXPIRATION_MS : Nat := 15 * 60 * 1000

/-- The alphabet used by `generateOAuthState`. -/
def stateChars : String := "ABCDEFGHIJKLMNOPQRSTUVWXYZabcdefghijklmnopqrstuvwxyz0123456789"

/-- Embeds `generateOAuthState`: the 32 random byte values drawn from
`crypto.getRandomValues(new Uint8Array(32))` are the explicit argument;
character `i` of the result is `chars.charAt(randomValues[i] % chars.length)`. -/
def generateOAuthState (randomValues : List Nat) : String :=
  String.mk ((randomValues.take 32).map (fun b => stateChars.data.getD (b % stateChars.length) 'A'))

/-- Uppercase hexadecimal digit, used by percent-encoding. -/
def hexDigit (n : Nat) : Char :=
  if n < 10 then Char.ofNat (48 + n) else Char.ofNat (55 + n)

/-- Percent-encoding of a single byte value, `%XX` with uppercase hex. -/
def percentByte (b : Nat) : List Char :=
  ['%', hexDigit (b / 16), hexDigit (b % 16)]

/-- UTF-8 byte sequence of a Unicode code point. -/
def utf8Bytes (n : Nat) : List Nat :=
  if n < 0x80 then [n]
  else if n < 0x800 then [0xC0 + n / 0x40, 0x80 + n % 0x40]
  else if n < 0x10000 then [0xE0 + n / 0x1000, 0x80 + (n / 0x40) % 0x40, 0x80 + n % 0x40]
  else [0xF0 + n / 0x40000, 0x80 + (n / 0x1000) % 0x40, 0x80 + (n / 0x40) % 0x40, 0x80 + n % 0x40]

/-- Characters that `URLSearchParams` serialization leaves unencoded
(`application/x-www-form-urlencoded` safe set). -/
def isUrlSafe (c : Char) : Bool :=
  c.isAlphanum || c == '*' || c == '-' || c == '.' || c == '_'

/-- Encoding of one character under `URLSearchParams.toString()`:
safe characters stand for themselves, a space becomes `+`, everything
else is percent-encoded bytewise. -/
def encodeChar (c : Char) : List Char :=
  if isUrlSafe c then [c]
  else if c == ' ' then ['+']
  else (utf8Bytes c.toNat).flatMap percentByte

/-- Form-urlencoding of a whole string. -/
def encodeComponent (s : String) : String :=
  String.mk (s.data.flatMap encodeChar)

/-- Joining of serialized parameter pairs with `&`. -/
def joinAmp : List String → String
  | [] => ""
  | [p] => p
  | p :: q :: rest => p ++ "&" ++ joinAmp (q :: rest)

/-- Serialization of a `URLSearchParams` value: `k=v` pairs joined by `&`,
keys and values encoded, in insertion order. -/
def paramsToString (ps : List (String × String)) : String :=
  joinAmp (ps.map (fun p => encodeComponent p.1 ++ "=" ++ encodeComponent p.2))

/-- Embeds `buildLinkedInAuthUrl`: the pure authorization-URL builder. -/
def buildLinkedInAuthUrl (clientId redirectUri state : String) : String :=
  LINKEDIN_AUTH_URL ++ "?" ++ paramsToString
    [("response_type", "code"),
     ("client_id", clientId),
     ("redirect_uri", redirectUri),
     ("state", state),
     ("scope", String.intercalate " " LINKEDIN_SCOPES)]

/-- Fields of the LinkedIn OpenID Connect userinfo response that the
verification flow consumes (`LinkedInProfile.sub` and `.name`). -/
structure LinkedInProfile where
  sub : String
  name : String
deriving Repr, DecidableEq

/-- Row of the `linkedinVerificationRequests` table. -/
structure VerificationRequest where
  id : Nat
  agentId : Nat
  state : String
  createdAt : Nat
  expiresAt : Nat
  completedAt : Option Nat := none
  error : Option String := none
deriving Repr, DecidableEq

/-- Verification-relevant fields of an `agents` row. -/
structure Agent where
  id : Nat
  handle : String
  verified : Bool := false
  verificationType : Option String := none
  verificationData : Option String := none
  verificationTier : String := "unverified"
  linkedinId : Option String := none
  linkedinName : Option String := none
  linkedinVerifiedAt : Option Nat := none
  inviteCodesRemaining : Option Nat := none
  canInvite : Bool := false
  updatedAt : Nat := 0
deriving Repr, DecidableEq

/-- Row of the `activityLog` table. -/
structure LogEntry where
  agentId : Nat
  action : String
  description : String
  requiresApproval : Bool
  createdAt : Nat
deriving Repr, DecidableEq

/-- The database state: the tables touched by the verification core, the
API-key resolution map consulted by `verifyApiKey`, and the id allocator. -/
structure DB where
  requests : List VerificationRequest := []
  agents : List Agent := []
  apiKeys : List (String × Nat) := []
  activityLog : List LogEntry := []
  nextId : Nat := 0
deriving Repr, DecidableEq

/-- Models `verifyApiKey(ctx, apiKey)`: resolves a credential to an agent
id, or nothing when the credential is invalid. -/
def verifyApiKey (db : DB) (apiKey : String) : Option Nat :=
  (db.apiKeys.find? (fun p => p.1 == apiKey)).map (fun p => p.2)

/-- Models `ctx.db.get(agentId)` on the `agents` table. -/
def DB.getAgent (db : DB) (aid : Nat) : Option Agent :=
  db.agents.find? (fun a => a.id == aid)

/-- Models the `by_state` index lookup followed by `.first()`. -/
def DB.findByState (db : DB) (s : String) : Option VerificationRequest :=
  db.requests.find? (fun r => r.state == s)

/-- Models the `by_agentId` index query filtered to
`completedAt == undefined` (the pending requests of one agent). -/
def DB.pendingFor (db : DB) (aid : Nat) : List VerificationRequest :=
  db.requests.filter (fun r => r.agentId == aid && r.completedAt == none)

/-- Models `ctx.db.patch(requestId, fields)`: merge-update of the request
row with the given id. -/
def DB.patchRequest (db : DB) (rid : Nat) (f : VerificationRequest → VerificationRequest) : DB :=
  { db with requests := db.requests.map (fun r => if r.id == rid then f r else r) }

/-- Models `ctx.db.patch(agentId, fields)`: merge-update of the agent row
with the given id. -/
def DB.patchAgent (db : DB) (aid : Nat) (f : Agent → Agent) : DB :=
  { db with agents := db.agents.map (fun a => if a.id == aid then f a else a) }

/-- The three `process.env.LINKEDIN_*` settings. -/
structure Env where
  LINKEDIN_CLIENT_ID : Option String := none
  LINKEDIN_CLIENT_SECRET : Option String := none
  LINKEDIN_REDIRECT_URI : Option String := none
deriving Repr, DecidableEq

/-- JavaScript falsiness of an optional environment string: `undefined`
and the empty string are both missing (`!clientId`). -/
def envMissing (o : Option String) : Bool :=
  o.isNone || o == some ""

/-- Result of the `startVerification` mutation. -/
inductive StartResult
  | ok (authorizationUrl : String) (expiresIn : Nat) (message : String)
  | err (error : String)
deriving Repr, DecidableEq

/-- Embeds the `startVerification` mutation. The freshly generated state
token (`generateOAuthState()`) is the explicit `state` argument. -/
def startVerification (env : Env) (apiKey : String) (now : Nat) (state : String)
    (db : DB) : DB × StartResult :=
  match verifyApiKey db apiKey with
  | none => (db, .err "Invalid API key")
  | some agentId =>
    match db.getAgent agentId with
    | none => (db, .err "Agent not found")
    | some agent =>
      if agent.verificationType == some "linkedin" && agent.verified then
        (db, .err "Agent is already LinkedIn verified")
      else if envMissing env.LINKEDIN_CLIENT_ID || envMissing env.LINKEDIN_CLIENT_SECRET
          || envMissing env.LINKEDIN_REDIRECT_URI then
        (db, .err "LinkedIn OAuth not configured. Please set LINKEDIN_CLIENT_ID, LINKEDIN_CLIENT_SECRET, and LINKEDIN_REDIRECT_URI.")
      else
        let clientId := env.LINKEDIN_CLIENT_ID.getD ""
        let redirectUri := env.LINKEDIN_REDIRECT_URI.getD ""
        let expiresAt := now + STATE_EXPIRATION_MS
        let db1 : DB :=
          { db with requests :=
              db.requests.filter (fun r => !(r.agentId == agentId && r.completedAt == none)) }
        let newReq : VerificationRequest :=
          { id := db1.nextId, agentId := agentId, state := state,
            createdAt := now, expiresAt := expiresAt }
        let db2 : DB := { db1 with requests := db1.requests ++ [newReq], nextId := db1.nextId + 1 }
        (db2, .ok (buildLinkedInAuthUrl clientId redirectUri state)
          (STATE_EXPIRATION_MS / 1000)
          "Have the agent owner visit this URL to complete LinkedIn verification")

/-- Result of the `completeVerification` internal mutation (also the shape
returned by the orchestrator action). -/
inductive CompleteResult
  | ok (agentId : Nat) (agentHandle : String) (linkedinName : String)
  | err (error : String)
deriving Repr, DecidableEq

/-- Embeds the `completeVerification` internal mutation. -/
def completeVerification (now : Nat) (state linkedinId linkedinName : String)
    (db : DB) : DB × CompleteResult :=
  match db.findByState state with
  | none => (db, .err "Invalid or expired state token")
  | some request =>
    if now > request.expiresAt then
      (db.patchRequest request.id (fun r => { r with error := some "State token expired" }),
       .err "Verification request expired")
    else if request.completedAt.isSome then
      (db, .err "Verification already completed")
    else
      match db.getAgent request.agentId with
      | none =>
        (db.patchRequest request.id (fun r => { r with error := some "Agent not found" }),
         .err "Agent not found")
      | some agent =>
        let db1 := db.patchRequest request.id (fun r => { r with completedAt := some now })
        let isNewlyVerified := agent.verificationTier ≠ "verified"
        let db2 := db1.patchAgent request.agentId (fun a =>
          { a with verified := true, verificationType := some "linkedin",
                   verificationData := some linkedinId, verificationTier := "verified",
                   linkedinId := some linkedinId, linkedinName := some linkedinName,
                   linkedinVerifiedAt := some now, updatedAt := now })
        let db3 := if isNewlyVerified then
            db2.patchAgent request.agentId (fun a =>
              { a with inviteCodesRemaining := some (max (agent.inviteCodesRemaining.getD 0) 3),
                       canInvite := true })
          else db2
        let db4 : DB := { db3 with activityLog := db3.activityLog ++
          [{ agentId := request.agentId, action := "linkedin_verified",
             description := "Agent verified via LinkedIn as " ++ linkedinName,
             requiresApproval := false, createdAt := now }] }
        (db4, .ok request.agentId agent.handle linkedinName)

/-- Result of the `validateState` internal query. -/
inductive ValidateResult
  | valid (agentId : Nat)
  | invalid (error : String)
deriving Repr, DecidableEq

/-- Embeds the `validateState` internal query (a pure read: it returns a
result and touches no table). -/
def validateState (now : Nat) (state : String) (db : DB) : ValidateResult :=
  match db.findByState state with
  | none => .invalid "Invalid or expired state token"
  | some request =>
    if now > request.expiresAt then .invalid "Verification request expired"
    else if request.completedAt.isSome then .invalid "Verification already completed"
    else
      match db.getAgent request.agentId with
      | none => .invalid "Agent not found"
      | some _ => .valid request.agentId

/-- Embeds the `completeLinkedInOAuthAction` internal action: validate the
state, check configuration, run the OAuth exchange (the `exchange` oracle
applied to the authorization code; `Except.error` is a thrown exception
caught by the `try/catch`), then run the `completeVerification` mutation. -/
def completeLinkedInOAuthAction (env : Env) (exchange : String → Except String LinkedInProfile)
    (now : Nat) (state code : String) (db : DB) : DB × CompleteResult :=
  match validateState now state db with
  | .invalid e => (db, .err e)
  | .valid _ =>
    if envMissing env.LINKEDIN_CLIENT_ID || envMissing env.LINKEDIN_CLIENT_SECRET
        || envMissing env.LINKEDIN_REDIRECT_URI then
      (db, .err "LinkedIn OAuth not configured")
    else
      match exchange code with
      | .error msg => (db, .err ("LinkedIn OAuth failed: " ++ msg))
      | .ok profile => completeVerification now state profile.sub profile.name db

/-- Result of the `getVerificationStatus` query. -/
structure StatusResult where
  pending : Bool
  verified : Bool
  verificationType : Option String := none
  linkedinId : Option String := none
  linkedinName : Option String := none
  verifiedAt : Option Nat := none
  pendingExpiresAt : Option Nat := none
deriving Repr, DecidableEq

/-- Embeds the `getVerificationStatus` query. -/
def getVerificationStatus (apiKey : String) (now : Nat) (db : DB) : StatusResult :=
  match verifyApiKey db apiKey with
  | none => { pending := false, verified := false }
  | some agentId =>
    match db.getAgent agentId with
    | none => { pending := false, verified := false }
    | some agent =>
      if agent.verificationType == some "linkedin" && agent.verified then
        { pending := false, verified := true, verificationType := some "linkedin",
          linkedinId := agent.linkedinId, linkedinName := agent.linkedinName,
          verifiedAt := agent.linkedinVerifiedAt }
      else
        match db.requests.find?
            (fun r => r.agentId == agentId && r.completedAt == none && now < r.expiresAt) with
        | some pendingRequest =>
          { pending := true, verified := false, pendingExpiresAt := some pendingRequest.expiresAt }
        | none => { pending := false, verified := false }

/-- One invocation of the `startVerification` mutation: its environment,
credential, clock reading, and freshly drawn state token. -/
structure StartCall where
  env : Env
  apiKey : String
  now : Nat
  state : String

/-- Database reached after a sequence of `startVerification` calls. -/
def applyStarts (calls : List StartCall) (db : DB) : DB :=
  calls.foldl (fun d c => (startVerification c.env c.apiKey c.now c.state d).1) db

/-- Number of uncompleted (`completedAt == undefined`) requests of one agent. -/
def pendingCount (db : DB) (aid : Nat) : Nat :=
  (db.pendingFor aid).length

/-- Invariant: every agent has at most one uncompleted request. -/
def AtMostOnePending (db : DB) : Prop :=
  ∀ aid, pendingCount db aid ≤ 1

/-- Fully configured environment for concrete runs. -/
def exEnv : Env :=
  { LINKEDIN_CLIENT_ID := some "cid", LINKEDIN_CLIENT_SECRET := some "secret",
    LINKEDIN_REDIRECT_URI := some "https://example.com/cb" }

/-- An unverified agent fixture. -/
def exAgent : Agent := { id := 1, handle := "agent1" }

/-- An agent fixture already verified via a different method, holding seven
invite codes. -/
def exVerifiedAgent : Agent :=
  { id := 1, handle := "agent1", verified := true, verificationType := some "email",
    verificationTier := "verified", inviteCodesRemaining := some 7 }

/-- A live verification-request fixture. -/
def exReq : VerificationRequest :=
  { id := 10, agentId := 1, state := "STATETOKEN", createdAt := 1000, expiresAt := 901000 }

/-- The same request after completion. -/
def exReqDone : VerificationRequest := { exReq with completedAt := some 2000 }

/-- Database fixture with one live request for the unverified agent. -/
def exDB : DB :=
  { requests := [exReq], agents := [exAgent], apiKeys := [("key1", 1)], nextId := 20 }

/-- Database fixture where the request is already completed. -/
def exDBdone : DB := { exDB with requests := [exReqDone] }

/-- Database fixture with a live request bound to the already-verified agent. -/
def exDBvt : DB :=
  { requests := [exReq], agents := [exVerifiedAgent], apiKeys := [("key1", 1)], nextId := 20 }

/-- Database fixture with an agent verified via another method and no requests. -/
def exDBother : DB := { agents := [exVerifiedAgent], apiKeys := [("key1", 1)], nextId := 20 }

lemma agents_patchRequest (db : DB) (rid : Nat) (f : VerificationRequest → VerificationRequest) :
    (db.patchRequest rid f).agents = db.agents := rfl

lemma requests_patchAgent (db : DB) (aid : Nat) (f : Agent → Agent) :
    (db.patchAgent aid f).requests = db.requests := rfl

lemma findByState_patchAgent (db : DB) (aid : Nat) (f : Agent → Agent) (s : String) :
    (db.patchAgent aid f).findByState s = db.findByState s := rfl

lemma getAgent_patchRequest (db : DB) (rid : Nat) (f : VerificationRequest → VerificationRequest)
    (aid : Nat) : (db.patchRequest rid f).getAgent aid = db.getAgent aid := rfl

lemma findByState_patchRequest_self (db : DB) (s : String) (r : VerificationRequest)
    (f : VerificationRequest → VerificationRequest)
    (hst : ∀ x, (f x).state = x.state)
    (h : db.findByState s = some r) :
    (db.patchRequest r.id f).findByState s = some (f r) := by
  unfold DB.findByState DB.patchRequest
  rw [List.find?_map]
  have hg : (fun x : VerificationRequest => x.state == s) ∘
      (fun x => if x.id == r.id then f x else x) = fun x : VerificationRequest => x.state == s := by
    funext x
    by_cases hx : x.id == r.id <;> simp [Function.comp, hx, hst]
  rw [hg]
  unfold DB.findByState at h
  rw [h]
  simp

lemma getAgent_patchAgent_self (db : DB) (aid : Nat) (f : Agent → Agent) (a : Agent)
    (hid : ∀ x, (f x).id = x.id)
    (h : db.getAgent aid = some a) :
    (db.patchAgent aid f).getAgent aid = some (f a) := by
  unfold DB.getAgent DB.patchAgent
  rw [List.find?_map]
  have hg : (fun x : Agent => x.id == aid) ∘ (fun x => if x.id == aid then f x else x)
      = fun x : Agent => x.id == aid := by
    funext x
    by_cases hx : x.id == aid <;> simp [Function.comp, hx, hid]
  rw [hg]
  unfold DB.getAgent at h
  rw [h]
  have ha := List.find?_some h
  simp only [] at ha
  simp only [Option.map]
  rw [if_pos ha]

/-- C2: a second CompleteVerification on a request whose `completedAt` is
already set (and that is not expired) returns the AlreadyCompleted error and
leaves the whole database — request row and agent record included —
unchanged. -/
theorem completeVerification_already_completed
    (now : Nat) (state lid lname : String) (db : DB) (r : VerificationRequest) (t : Nat)
    (hf : db.findByState state = some r)
    (hexp : ¬ now > r.expiresAt)
    (hc : r.completedAt = some t) :
    completeVerification now state lid lname db = (db, .err "Verification already completed") := by
  unfold completeVerification
  rw [hf]
  simp [hexp, hc]

/-- Witness for C2 at a concrete database: the request completed at 2000 is
re-presented at time 2500 and nothing changes. -/
theorem completeVerification_already_completed_witness :
    completeVerification 2500 "STATETOKEN" "lid" "Jane" exDBdone
      = (exDBdone, .err "Verification already completed") :=
  completeVerification_already_completed 2500 "STATETOKEN" "lid" "Jane" exDBdone exReqDone 2000
    (by decide) (by decide) (by decide)

/-- C5: a request whose `expiresAt` lies strictly in the past is rejected by
both the validator and the completer with the Expired result; the completer
writes the diagnostic error string onto the request row, sets no
`completedAt`, and touches no agent; the validator is a pure read. -/
theorem expired_rejected_by_both (now : Nat) (state lid lname : String) (db : DB)
    (r : VerificationRequest)
    (hf : db.findByState state = some r)
    (hexp : now > r.expiresAt) :
    validateState now state db = .invalid "Verification request expired" ∧
    completeVerification now state lid lname db =
      (db.patchRequest r.id (fun x => { x with error := some "State token expired" }),
       .err "Verification request expired") ∧
    (completeVerification now state lid lname db).1.agents = db.agents ∧
    (completeVerification now state lid lname db).1.requests.map (fun x => x.completedAt)
      = db.requests.map (fun x => x.completedAt) := by
  have hv : validateState now state db = .invalid "Verification request expired" := by
    unfold validateState
    rw [hf]
    simp [hexp]
  have hcmp : completeVerification now state lid lname db =
      (db.patchRequest r.id (fun x => { x with error := some "State token expired" }),
       .err "Verification request expired") := by
    unfold completeVerification
    rw [hf]
    simp [hexp]
  refine ⟨hv, hcmp, ?_, ?_⟩
  · rw [hcmp]
    rfl
  · rw [hcmp]
    unfold DB.patchRequest
    have hco : ((fun x : VerificationRequest => x.completedAt) ∘
        (fun x => if x.id == r.id then { x with error := some "State token expired" } else x))
        = fun x : VerificationRequest => x.completedAt := by
      funext x
      by_cases hx : x.id == r.id <;> simp [Function.comp, hx]
    simp only [List.map_map]
    rw [hco]

/-- Witness for C5 at a concrete database: completing the live request at a
time past its expiry fails with the Expired error and records the
diagnostic string. -/
theorem expired_rejected_by_both_witness :
    validateState 901001 "STATETOKEN" exDB = .invalid "Verification request expired" ∧
    completeVerification 901001 "STATETOKEN" "lid" "Jane" exDB =
      (exDB.patchRequest exReq.id (fun x => { x with error := some "State token expired" }),
       .err "Verification request expired") := by
  have h := expired_rejected_by_both 901001 "STATETOKEN" "lid" "Jane" exDB exReq
    (by decide) (by decide)
  exact ⟨h.1, h.2.1⟩

/-- C10: expiry is strict: at the boundary instant `now = expiresAt` the
expired branch does not fire, so both the validator and the completer still
treat the request as live and the request remains completable. -/
theorem boundary_instant_completable (now : Nat) (state lid lname : String) (db : DB)
    (r : VerificationRequest) (agent : Agent)
    (hf : db.findByState state = some r)
    (hb : now = r.expiresAt)
    (hc : r.completedAt = none)
    (ha : db.getAgent r.agentId = some agent) :
    validateState now state db = .valid r.agentId ∧
    (completeVerification now state lid lname db).2 = .ok r.agentId agent.handle lname := by
  have hexp : ¬ now > r.expiresAt := by omega
  constructor
  · unfold validateState
    rw [hf]
    simp [hexp, hc, ha]
  · unfold completeVerification
    rw [hf]
    simp [hexp, hc, ha]

/-- Witness for C10 at a concrete database: completing exactly at
`expiresAt = 901000` still succeeds. -/
theorem boundary_instant_completable_witness :
    validateState 901000 "STATETOKEN" exDB = .valid 1 ∧
    (completeVerification 901000 "STATETOKEN" "lid" "Jane" exDB).2 = .ok 1 "agent1" "Jane" := by
  have h := boundary_instant_completable 901000 "STATETOKEN" "lid" "Jane" exDB exReq exAgent
    (by decide) (by decide) (by decide) (by decide)
  exact h

/-- C4: ValidateState is a pure read deciding in first-match-wins order:
missing state (in particular any never-issued state value) yields the
invalid-or-expired result; then strict expiry; then already-completed; then
missing agent; otherwise valid with the bound agent id. -/
theorem validateState_decision_order (now : Nat) (state : String) (db : DB) :
    (db.findByState state = none →
      validateState now state db = .invalid "Invalid or expired state token") ∧
    ((∀ r ∈ db.requests, r.state ≠ state) →
      validateState now state db = .invalid "Invalid or expired state token") ∧
    (∀ r, db.findByState state = some r → now > r.expiresAt →
      validateState now state db = .invalid "Verification request expired") ∧
    (∀ r, db.findByState state = some r → ¬ now > r.expiresAt → r.completedAt.isSome = true →
      validateState now state db = .invalid "Verification already completed") ∧
    (∀ r, db.findByState state = some r → ¬ now > r.expiresAt → r.completedAt = none →
      db.getAgent r.agentId = none →
      validateState now state db = .invalid "Agent not found") ∧
    (∀ r a, db.findByState state = some r → ¬ now > r.expiresAt → r.completedAt = none →
      db.getAgent r.agentId = some a →
      validateState now state db = .valid r.agentId) := by
  refine ⟨?_, ?_, ?_, ?_, ?_, ?_⟩
  · intro h
    unfold validateState
    rw [h]
  · intro h
    have hn : db.findByState state = none := by
      unfold DB.findByState
      rw [List.find?_eq_none]
      intro r hr
      simp [h r hr]
    unfold validateState
    rw [hn]
  · intro r hf hexp
    unfold validateState
    rw [hf]
    simp [hexp]
  · intro r hf hexp hc
    unfold validateState
    rw [hf]
    simp [hexp, hc]
  · intro r hf hexp hc hA
    unfold validateState
    rw [hf]
    simp [hexp, hc, hA]
  · intro r a hf hexp hc hA
    unfold validateState
    rw [hf]
    simp [hexp, hc, hA]

/-- Witness for C4 at a concrete database: the live request validates to the
bound agent, and a never-issued state value yields the invalid-or-expired
result. -/
theorem validateState_decision_order_witness :
    validateState 2000 "STATETOKEN" exDB = .valid 1 ∧
    validateState 2000 "NEVERISSUED" exDB = .invalid "Invalid or expired state token" := by
  constructor
  · have h := (validateState_decision_order 2000 "STATETOKEN" exDB).2.2.2.2.2 exReq exAgent
      (by decide) (by decide) (by decide) (by decide)
    exact h
  · exact (validateState_decision_order 2000 "NEVERISSUED" exDB).2.1 (by decide)

lemma findByState_setLog (db : DB) (L : List LogEntry) (s : String) :
    (DB.mk db.requests db.agents db.apiKeys L db.nextId).findByState s = db.findByState s := rfl

lemma getAgent_setLog (db : DB) (L : List LogEntry) (aid : Nat) :
    (DB.mk db.requests db.agents db.apiKeys L db.nextId).getAgent aid = db.getAgent aid := rfl

/-- C3: on a live request whose agent exists, CompleteVerification marks the
request completed, applies the provider identity fields with
`verified = true`, `verificationType = "linkedin"` and tier `"verified"`,
and — exactly when the tier was not `"verified"` before the call — raises
`inviteCodesRemaining` to `max(current, 3)` and sets `canInvite = true`,
leaving the invite allowance and `canInvite` untouched otherwise. -/
theorem completeVerification_success (now : Nat) (state lid lname : String) (db : DB)
    (r : VerificationRequest) (agent : Agent)
    (hf : db.findByState state = some r)
    (hexp : ¬ now > r.expiresAt)
    (hc : r.completedAt = none)
    (ha : db.getAgent r.agentId = some agent) :
    (completeVerification now state lid lname db).2 = .ok r.agentId agent.handle lname ∧
    (completeVerification now state lid lname db).1.findByState state
      = some { r with completedAt := some now } ∧
    (agent.verificationTier ≠ "verified" →
      (completeVerification now state lid lname db).1.getAgent r.agentId =
        some { agent with verified := true, verificationType := some "linkedin",
                          verificationData := some lid, verificationTier := "verified",
                          linkedinId := some lid, linkedinName := some lname,
                          linkedinVerifiedAt := some now, updatedAt := now,
                          inviteCodesRemaining := some (max (agent.inviteCodesRemaining.getD 0) 3),
                          canInvite := true }) ∧
    (agent.verificationTier = "verified" →
      (completeVerification now state lid lname db).1.getAgent r.agentId =
        some { agent with verified := true, verificationType := some "linkedin",
                          verificationData := some lid, verificationTier := "verified",
                          linkedinId := some lid, linkedinName := some lname,
                          linkedinVerifiedAt := some now, updatedAt := now }) := by
  refine ⟨?_, ?_, ?_, ?_⟩
  · unfold completeVerification
    rw [hf]
    simp [hexp, hc, ha]
  · unfold completeVerification
    rw [hf]
    simp only [hc, ha, hexp, Option.isSome_none, Bool.false_eq_true, if_false,
      ite_false, ite_true, not_false_eq_true]
    by_cases htier : agent.verificationTier = "verified" <;>
      simp only [htier, ne_eq, not_true_eq_false, not_false_eq_true, ite_false, ite_true,
        findByState_setLog, findByState_patchAgent] <;>
      exact findByState_patchRequest_self db state r _ (fun x => rfl) hf
  · intro htier
    unfold completeVerification
    rw [hf]
    simp only [hc, ha, hexp, Option.isSome_none, Bool.false_eq_true, if_false,
      ite_false, ite_true, not_false_eq_true]
    simp only [htier, ne_eq, not_false_eq_true, ite_true, getAgent_setLog]
    have h1 : (db.patchRequest r.id
        (fun x => { x with completedAt := some now })).getAgent r.agentId = some agent := by
      rw [getAgent_patchRequest]
      exact ha
    have h2 := getAgent_patchAgent_self _ r.agentId
      (fun a => { a with verified := true, verificationType := some "linkedin",
                         verificationData := some lid, verificationTier := "verified",
                         linkedinId := some lid, linkedinName := some lname,
                         linkedinVerifiedAt := some now, updatedAt := now }) agent
      (fun x => rfl) h1
    have h3 := getAgent_patchAgent_self _ r.agentId
      (fun a => { a with inviteCodesRemaining := some (max (agent.inviteCodesRemaining.getD 0) 3),
                         canInvite := true }) _ (fun x => rfl) h2
    exact h3
  · intro htier
    unfold completeVerification
    rw [hf]
    simp only [hc, ha, hexp, Option.isSome_none, Bool.false_eq_true, if_false,
      ite_false, ite_true, not_false_eq_true]
    simp only [htier, ne_eq, not_true_eq_false, ite_false, getAgent_setLog]
    have h1 : (db.patchRequest r.id
        (fun x => { x with completedAt := some now })).getAgent r.agentId = some agent := by
      rw [getAgent_patchRequest]
      exact ha
    have h2 := getAgent_patchAgent_self _ r.agentId
      (fun a => { a with verified := true, verificationType := some "linkedin",
                         verificationData := some lid, verificationTier := "verified",
                         linkedinId := some lid, linkedinName := some lname,
                         linkedinVerifiedAt := some now, updatedAt := now }) agent
      (fun x => rfl) h1
    exact h2

/-- Witness for C3 at concrete databases: a fresh agent is upgraded and
granted `max(0, 3) = 3` invite codes; an agent already at tier `"verified"`
with seven codes keeps them untouched. -/
theorem completeVerification_success_witness :
    (completeVerification 2000 "STATETOKEN" "lid" "Jane" exDB).2 = .ok 1 "agent1" "Jane" ∧
    (completeVerification 2000 "STATETOKEN" "lid" "Jane" exDB).1.getAgent 1 =
      some { exAgent with verified := true, verificationType := some "linkedin",
                          verificationData := some "lid", verificationTier := "verified",
                          linkedinId := some "lid", linkedinName := some "Jane",
                          linkedinVerifiedAt := some 2000, updatedAt := 2000,
                          inviteCodesRemaining := some 3, canInvite := true } ∧
    (completeVerification 2000 "STATETOKEN" "lid" "Jane" exDBvt).1.getAgent 1 =
      some { exVerifiedAgent with verified := true, verificationType := some "linkedin",
                                  verificationData := some "lid", linkedinId := some "lid",
                                  linkedinName := some "Jane", linkedinVerifiedAt := some 2000,
                                  updatedAt := 2000 } := by
  have hA := completeVerification_success 2000 "STATETOKEN" "lid" "Jane" exDB exReq exAgent
    (by decide) (by decide) (by decide) (by decide)
  have hB := completeVerification_success 2000 "STATETOKEN" "lid" "Jane" exDBvt exReq
    exVerifiedAgent (by decide) (by decide) (by decide) (by decide)
  refine ⟨hA.1, ?_, ?_⟩
  · have h := hA.2.2.1 (by decide)
    simpa using h
  · have h := hB.2.2.2 (by decide)
    simpa using h

/-- C8: every StartVerification failure — invalid credential, missing agent,
already LinkedIn-verified, provider not configured — is returned as a
structured error value with the database untouched; in particular the
absence of any one of the three provider settings fails with the
not-configured error before any state is created. -/
theorem startVerification_structured_failures (env : Env) (apiKey : String) (now : Nat)
    (state : String) (db : DB) :
    (verifyApiKey db apiKey = none →
      startVerification env apiKey now state db = (db, .err "Invalid API key")) ∧
    (∀ aid, verifyApiKey db apiKey = some aid → db.getAgent aid = none →
      startVerification env apiKey now state db = (db, .err "Agent not found")) ∧
    (∀ aid a, verifyApiKey db apiKey = some aid → db.getAgent aid = some a →
      a.verificationType = some "linkedin" → a.verified = true →
      startVerification env apiKey now state db =
        (db, .err "Agent is already LinkedIn verified")) ∧
    (∀ aid a, verifyApiKey db apiKey = some aid → db.getAgent aid = some a →
      ¬(a.verificationType = some "linkedin" ∧ a.verified = true) →
      (env.LINKEDIN_CLIENT_ID = none ∨ env.LINKEDIN_CLIENT_SECRET = none ∨
        env.LINKEDIN_REDIRECT_URI = none) →
      startVerification env apiKey now state db =
        (db, .err "LinkedIn OAuth not configured. Please set LINKEDIN_CLIENT_ID, LINKEDIN_CLIENT_SECRET, and LINKEDIN_REDIRECT_URI.")) := by
  refine ⟨?_, ?_, ?_, ?_⟩
  · intro h
    simp [startVerification, h]
  · intro aid hv hg
    simp [startVerification, hv, hg]
  · intro aid a hv hg ht hver
    simp [startVerification, hv, hg, ht, hver]
  · intro aid a hv hg hnv hmiss
    have hcond : (a.verificationType == some "linkedin" && a.verified) = false := by
      cases hvt : a.verificationType == some "linkedin"
      · simp
      · cases hvf : a.verified
        · simp
        · exact absurd ⟨by simpa using hvt, hvf⟩ hnv
    have hm : (envMissing env.LINKEDIN_CLIENT_ID || envMissing env.LINKEDIN_CLIENT_SECRET
        || envMissing env.LINKEDIN_REDIRECT_URI) = true := by
      rcases hmiss with h | h | h <;> simp [envMissing, h]
    simp [startVerification, hv, hg, hcond, hm]

/-- Witness for C8 at concrete inputs: a bad credential fails structurally,
and a missing client secret fails closed without creating state. -/
theorem startVerification_structured_failures_witness :
    startVerification exEnv "wrong" 1000 "S" exDB = (exDB, .err "Invalid API key") ∧
    startVerification { exEnv with LINKEDIN_CLIENT_SECRET := none } "key1" 1000 "S" exDB =
      (exDB, .err "LinkedIn OAuth not configured. Please set LINKEDIN_CLIENT_ID, LINKEDIN_CLIENT_SECRET, and LINKEDIN_REDIRECT_URI.") := by
  constructor
  · exact (startVerification_structured_failures exEnv "wrong" 1000 "S" exDB).1 (by decide)
  · exact (startVerification_structured_failures
      { exEnv with LINKEDIN_CLIENT_SECRET := none } "key1" 1000 "S" exDB).2.2.2 1 exAgent
      (by decide) (by decide) (by decide) (Or.inr (Or.inl rfl))

/-- C6: the orchestrator returns the first failure and never runs a later
step after one fails: an invalid state yields that error with no database
change and a result independent of the network oracle; a throwing exchange
is caught and re-wrapped as a structured `LinkedIn OAuth failed:` error
with no mutation; only a successful exchange reaches the completion
mutation. -/
theorem orchestrator_short_circuits (env : Env)
    (exchange exchange' : String → Except String LinkedInProfile)
    (now : Nat) (state code : String) (db : DB) :
    (∀ e, validateState now state db = .invalid e →
      completeLinkedInOAuthAction env exchange now state code db = (db, .err e) ∧
      completeLinkedInOAuthAction env exchange now state code db
        = completeLinkedInOAuthAction env exchange' now state code db) ∧
    (∀ aid msg, validateState now state db = .valid aid →
      envMissing env.LINKEDIN_CLIENT_ID = false →
      envMissing env.LINKEDIN_CLIENT_SECRET = false →
      envMissing env.LINKEDIN_REDIRECT_URI = false →
      exchange code = .error msg →
      completeLinkedInOAuthAction env exchange now state code db
        = (db, .err ("LinkedIn OAuth failed: " ++ msg))) ∧
    (∀ aid profile, validateState now state db = .valid aid →
      envMissing env.LINKEDIN_CLIENT_ID = false →
      envMissing env.LINKEDIN_CLIENT_SECRET = false →
      envMissing env.LINKEDIN_REDIRECT_URI = false →
      exchange code = .ok profile →
      completeLinkedInOAuthAction env exchange now state code db
        = completeVerification now state profile.sub profile.name db) := by
  refine ⟨?_, ?_, ?_⟩
  · intro e h
    constructor <;> · unfold completeLinkedInOAuthAction
                      rw [h]
  · intro aid msg hv h1 h2 h3 hex
    unfold completeLinkedInOAuthAction
    rw [hv]
    simp [h1, h2, h3, hex]
  · intro aid profile hv h1 h2 h3 hex
    unfold completeLinkedInOAuthAction
    rw [hv]
    simp [h1, h2, h3, hex]

/-- Witness for C6 at a concrete database: with an invalid state the result
ignores the oracle entirely, and a throwing oracle is re-wrapped. -/
theorem orchestrator_short_circuits_witness :
    completeLinkedInOAuthAction exEnv (fun c => .error c) 2000 "NEVERISSUED" "code" exDB
      = (exDB, .err "Invalid or expired state token") ∧
    completeLinkedInOAuthAction exEnv (fun _ => .error "ECONNRESET") 2000 "STATETOKEN" "code" exDB
      = (exDB, .err "LinkedIn OAuth failed: ECONNRESET") := by
  constructor
  · exact ((orchestrator_short_circuits exEnv (fun c => .error c)
      (fun _ => .ok { sub := "s", name := "n" }) 2000 "NEVERISSUED" "code" exDB).1
      "Invalid or expired state token" (by decide)).1
  · exact (orchestrator_short_circuits exEnv (fun _ => .error "ECONNRESET")
      (fun _ => .error "ECONNRESET") 2000 "STATETOKEN" "code" exDB).2.1 1 "ECONNRESET"
      (by decide) (by decide) (by decide) (by decide) rfl

/-- Counterexample for C7: an agent whose `verified` flag is set, but via a
different method (`verificationType = "email"`), is NOT reported as
verified by the status query — refuting the claim that verified:true is
reported whenever the flag is set. The code additionally requires
`verificationType === "linkedin"`. -/
theorem getVerificationStatus_verified_flag_not_sufficient :
    (exDBother.getAgent 1).map (fun a => a.verified) = some true ∧
    verifyApiKey exDBother "key1" = some 1 ∧
    getVerificationStatus "key1" 0 exDBother = { pending := false, verified := false } := by
  decide

/-- C7 (amended): the status query reports verified:true with provider
details exactly when the agent's `verified` flag is set AND its
`verificationType` is `"linkedin"`; otherwise it reports pending:true with
`pendingExpiresAt` exactly when the agent has an uncompleted request whose
`expiresAt` is strictly in the future, and pending:false, verified:false
otherwise (including unresolved credentials and missing agents). -/
theorem getVerificationStatus_branches (apiKey : String) (now : Nat) (db : DB) :
    (verifyApiKey db apiKey = none →
      getVerificationStatus apiKey now db = { pending := false, verified := false }) ∧
    (∀ aid, verifyApiKey db apiKey = some aid → db.getAgent aid = none →
      getVerificationStatus apiKey now db = { pending := false, verified := false }) ∧
    (∀ aid a, verifyApiKey db apiKey = some aid → db.getAgent aid = some a →
      a.verificationType = some "linkedin" → a.verified = true →
      getVerificationStatus apiKey now db =
        { pending := false, verified := true, verificationType := some "linkedin",
          linkedinId := a.linkedinId, linkedinName := a.linkedinName,
          verifiedAt := a.linkedinVerifiedAt }) ∧
    (∀ aid a p, verifyApiKey db apiKey = some aid → db.getAgent aid = some a →
      ¬(a.verificationType = some "linkedin" ∧ a.verified = true) →
      db.requests.find?
        (fun r => r.agentId == aid && r.completedAt == none && now < r.expiresAt) = some p →
      getVerificationStatus apiKey now db =
        { pending := true, verified := false, pendingExpiresAt := some p.expiresAt }) ∧
    (∀ aid a, verifyApiKey db apiKey = some aid → db.getAgent aid = some a →
      ¬(a.verificationType = some "linkedin" ∧ a.verified = true) →
      db.requests.find?
        (fun r => r.agentId == aid && r.completedAt == none && now < r.expiresAt) = none →
      getVerificationStatus apiKey now db = { pending := false, verified := false }) := by
  have hcondOf : ∀ a : Agent, ¬(a.verificationType = some "linkedin" ∧ a.verified = true) →
      (a.verificationType == some "linkedin" && a.verified) = false := by
    intro a hnv
    cases hvt : a.verificationType == some "linkedin"
    · simp
    · cases hvf : a.verified
      · simp
      · exact absurd ⟨by simpa using hvt, hvf⟩ hnv
  refine ⟨?_, ?_, ?_, ?_, ?_⟩
  · intro h
    simp [getVerificationStatus, h]
  · intro aid hv hg
    simp [getVerificationStatus, hv, hg]
  · intro aid a hv hg ht hver
    simp [getVerificationStatus, hv, hg, ht, hver]
  · intro aid a p hv hg hnv hp
    simp [getVerificationStatus, hv, hg, hcondOf a hnv, hp]
  · intro aid a hv hg hnv hp
    simp [getVerificationStatus, hv, hg, hcondOf a hnv, hp]

/-- Witness for the amended C7 at concrete databases: a LinkedIn-verified
agent is reported verified, and an agent with only a live request is
reported pending with that request's expiry. -/
theorem getVerificationStatus_branches_witness :
    getVerificationStatus "key1" 3000
        ((completeVerification 2000 "STATETOKEN" "lid" "Jane" exDB).1) =
      { pending := false, verified := true, verificationType := some "linkedin",
        linkedinId := some "lid", linkedinName := some "Jane", verifiedAt := some 2000 } ∧
    getVerificationStatus "key1" 3000 exDB =
      { pending := true, verified := false, pendingExpiresAt := some 901000 } := by
  constructor
  · have h := (getVerificationStatus_branches "key1" 3000
      ((completeVerification 2000 "STATETOKEN" "lid" "Jane" exDB).1)).2.2.1 1
      { exAgent with verified := true, verificationType := some "linkedin",
                     verificationData := some "lid", verificationTier := "verified",
                     linkedinId := some "lid", linkedinName := some "Jane",
                     linkedinVerifiedAt := some 2000, updatedAt := 2000,
                     inviteCodesRemaining := some 3, canInvite := true }
      (by decide) (by decide) (by decide) (by decide)
    simpa using h
  · have h := (getVerificationStatus_branches "key1" 3000 exDB).2.2.2.1 1 exAgent exReq
      (by decide) (by decide) (by decide) (by decide)
    simpa using h

lemma encodeChar_alnum (c : Char) (h : c.isAlphanum = true) : encodeChar c = [c] := by
  unfold encodeChar
  rw [if_pos]
  unfold isUrlSafe
  simp [h]

lemma flatMap_encodeChar_alnum (l : List Char) (h : ∀ c ∈ l, c.isAlphanum = true) :
    l.flatMap encodeChar = l := by
  induction l with
  | nil => rfl
  | cons c cs ih =>
    rw [List.flatMap_cons, encodeChar_alnum c (h c (by simp)),
      ih (fun x hx => h x (by simp [hx]))]
    rfl

lemma encodeComponent_alnum (s : String) (h : ∀ c ∈ s.data, c.isAlphanum = true) :
    encodeComponent s = s := by
  unfold encodeComponent
  rw [flatMap_encodeChar_alnum s.data h]

lemma getD_prop {α : Type} (P : α → Prop) (d : α) (hd : P d) (l : List α)
    (hl : ∀ x ∈ l, P x) (i : Nat) : P (l.getD i d) := by
  induction l generalizing i with
  | nil =>
    simpa [List.getD] using hd
  | cons x xs ih =>
    cases i with
    | zero => simpa [List.getD] using hl x (by simp)
    | succ n =>
      have : (x :: xs).getD (n + 1) d = xs.getD n d := by simp [List.getD]
      rw [this]
      exact ih (fun y hy => hl y (by simp [hy])) n

lemma stateChars_alnum : ∀ c ∈ stateChars.data, c.isAlphanum = true := by decide

lemma startVerification_ok (env : Env) (apiKey : String) (now : Nat) (state : String)
    (db : DB) (url : String) (t : Nat) (m : String)
    (h : (startVerification env apiKey now state db).2 = .ok url t m) :
    t = STATE_EXPIRATION_MS / 1000 ∧
    url = buildLinkedInAuthUrl (env.LINKEDIN_CLIENT_ID.getD "")
      (env.LINKEDIN_REDIRECT_URI.getD "") state := by
  unfold startVerification at h
  cases hv : verifyApiKey db apiKey with
  | none =>
    simp only [hv] at h
    simp at h
  | some aid =>
    simp only [hv] at h
    cases hg : db.getAgent aid with
    | none =>
      simp only [hg] at h
      simp at h
    | some a =>
      simp only [hg] at h
      by_cases h1 : (a.verificationType == some "linkedin" && a.verified) = true
      · simp [h1] at h
      · by_cases h2 : (envMissing env.LINKEDIN_CLIENT_ID
            || envMissing env.LINKEDIN_CLIENT_SECRET
            || envMissing env.LINKEDIN_REDIRECT_URI) = true
        · simp [h1, h2] at h
        · simp [h1, h2] at h
          exact ⟨h.2.1.symm, h.1.symm⟩

/-- C9: every 32-byte random input yields a 32-character state token over
the alphanumeric alphabet; `buildLinkedInAuthUrl` is a pure function whose
output embeds the state token literally together with the form-urlencoded
redirect URI and the fixed scope set; and every successful
StartVerification returns `expiresIn = 900` and exactly that URL built from
the configured credentials and the fresh state. -/
theorem state_token_and_auth_url :
    (∀ randomValues : List Nat, randomValues.length = 32 →
      (generateOAuthState randomValues).length = 32 ∧
      ∀ c ∈ (generateOAuthState randomValues).data, c.isAlphanum = true) ∧
    (∀ clientId redirectUri state : String, (∀ c ∈ state.data, c.isAlphanum = true) →
      buildLinkedInAuthUrl clientId redirectUri state =
        LINKEDIN_AUTH_URL ++ "?" ++
          ("response_type=code" ++ "&" ++
           ("client_id=" ++ encodeComponent clientId ++ "&" ++
            ("redirect_uri=" ++ encodeComponent redirectUri ++ "&" ++
             ("state=" ++ state ++ "&" ++ "scope=openid+profile+email"))))) ∧
    (∀ env apiKey now state db url t m,
      (startVerification env apiKey now state db).2 = .ok url t m →
      t = 900 ∧
      url = buildLinkedInAuthUrl (env.LINKEDIN_CLIENT_ID.getD "")
        (env.LINKEDIN_REDIRECT_URI.getD "") state) := by
  refine ⟨?_, ?_, ?_⟩
  · intro randomValues hlen
    constructor
    · show ((randomValues.take 32).map
        (fun b => stateChars.data.getD (b % stateChars.length) 'A')).length = 32
      rw [List.length_map, List.length_take, hlen]
      exact Nat.min_self 32
    · intro c hc
      unfold generateOAuthState at hc
      rcases List.mem_map.mp hc with ⟨b, _, rfl⟩
      exact getD_prop (fun c => c.isAlphanum = true) 'A' (by decide)
        stateChars.data stateChars_alnum (b % stateChars.length)
  · intro clientId redirectUri state hst
    have he : encodeComponent state = state := encodeComponent_alnum state hst
    unfold buildLinkedInAuthUrl paramsToString
    simp only [List.map, joinAmp, he]
    rw [show encodeComponent "response_type" ++ "=" ++ encodeComponent "code"
      = ("response_type=code" : String) from by decide]
    rw [show encodeComponent "client_id" ++ "=" = ("client_id=" : String) from by decide]
    rw [show encodeComponent "redirect_uri" ++ "=" = ("redirect_uri=" : String) from by decide]
    rw [show encodeComponent "state" ++ "=" = ("state=" : String) from by decide]
    rw [show encodeComponent "scope" ++ "="
      ++ encodeComponent (String.intercalate " " LINKEDIN_SCOPES)
      = ("scope=openid+profile+email" : String) from by decide]
  · intro env apiKey now state db url t m h
    have hk := startVerification_ok env apiKey now state db url t m h
    exact ⟨hk.1.trans (by decide), hk.2⟩

set_option maxRecDepth 4000 in
/-- Witness for C9 at concrete inputs: the token of the byte sequence
`0..31` has length 32 and is alphanumeric, the URL equation holds at
concrete credentials, and the concrete successful start returns 900. -/
theorem state_token_and_auth_url_witness :
    (generateOAuthState (List.range 32)).length = 32 ∧
    buildLinkedInAuthUrl "cid" "https://example.com/cb" "STATETOKEN" =
      LINKEDIN_AUTH_URL ++ "?" ++
        ("response_type=code" ++ "&" ++
         ("client_id=" ++ encodeComponent "cid" ++ "&" ++
          ("redirect_uri=" ++ encodeComponent "https://example.com/cb" ++ "&" ++
           ("state=" ++ "STATETOKEN" ++ "&" ++ "scope=openid+profile+email")))) ∧
    (startVerification exEnv "key1" 1000 "NEWSTATE" exDB).2 =
      .ok (buildLinkedInAuthUrl "cid" "https://example.com/cb" "NEWSTATE") 900
        "Have the agent owner visit this URL to complete LinkedIn verification" ∧
    900 = 900 := by
  refine ⟨?_, ?_, ?_, ?_⟩
  · exact (state_token_and_auth_url.1 (List.range 32) (by decide)).1
  · exact state_token_and_auth_url.2.1 "cid" "https://example.com/cb" "STATETOKEN" (by decide)
  · decide
  · have h := (state_token_and_auth_url.2.2 exEnv "key1" 1000 "NEWSTATE" exDB
      (buildLinkedInAuthUrl "cid" "https://example.com/cb" "NEWSTATE") 900
      "Have the agent owner visit this URL to complete LinkedIn verification" (by decide)).1
    exact h

lemma startVerification_cases (env : Env) (apiKey : String) (now : Nat) (state : String)
    (db : DB) :
    (∃ e, startVerification env apiKey now state db = (db, .err e)) ∨
    (∃ aid, verifyApiKey db apiKey = some aid ∧
      startVerification env apiKey now state db =
        ({ db with
            requests := db.requests.filter
                (fun r => !(r.agentId == aid && r.completedAt == none))
              ++ [{ id := db.nextId, agentId := aid, state := state, createdAt := now,
                    expiresAt := now + STATE_EXPIRATION_MS }],
            nextId := db.nextId + 1 },
         .ok (buildLinkedInAuthUrl (env.LINKEDIN_CLIENT_ID.getD "")
            (env.LINKEDIN_REDIRECT_URI.getD "") state) (STATE_EXPIRATION_MS / 1000)
          "Have the agent owner visit this URL to complete LinkedIn verification")) := by
  cases hv : verifyApiKey db apiKey with
  | none => exact Or.inl ⟨"Invalid API key", by simp [startVerification, hv]⟩
  | some aid =>
    cases hg : db.getAgent aid with
    | none => exact Or.inl ⟨"Agent not found", by simp [startVerification, hv, hg]⟩
    | some a =>
      by_cases h1 : (a.verificationType == some "linkedin" && a.verified) = true
      · exact Or.inl ⟨"Agent is already LinkedIn verified",
          by simp [startVerification, hv, hg, h1]⟩
      · by_cases h2 : (envMissing env.LINKEDIN_CLIENT_ID
            || envMissing env.LINKEDIN_CLIENT_SECRET
            || envMissing env.LINKEDIN_REDIRECT_URI) = true
        · exact Or.inl
            ⟨"LinkedIn OAuth not configured. Please set LINKEDIN_CLIENT_ID, LINKEDIN_CLIENT_SECRET, and LINKEDIN_REDIRECT_URI.",
              by simp [startVerification, hv, hg, h1, h2]⟩
        · refine Or.inr ⟨aid, rfl, ?_⟩
          simp [startVerification, hv, hg, h1, h2]

lemma atMostOnePending_start (env : Env) (apiKey : String) (now : Nat) (state : String)
    (db : DB) (h : AtMostOnePending db) :
    AtMostOnePending (startVerification env apiKey now state db).1 := by
  rcases startVerification_cases env apiKey now state db with ⟨e, heq⟩ | ⟨aid, hv, heq⟩
  · rw [heq]
    exact h
  · rw [heq]
    intro x
    show ((db.requests.filter
          (fun r : VerificationRequest => !(r.agentId == aid && r.completedAt == none))
        ++ [({ id := db.nextId, agentId := aid, state := state, createdAt := now,
               expiresAt := now + STATE_EXPIRATION_MS } : VerificationRequest)]).filter
        (fun r : VerificationRequest => r.agentId == x && r.completedAt == none)).length ≤ 1
    rw [List.filter_append, List.length_append]
    by_cases hx : x = aid
    · subst hx
      have hnil : (db.requests.filter
          (fun r => !(r.agentId == x && r.completedAt == none))).filter
          (fun r => r.agentId == x && r.completedAt == none) = [] := by
        rw [List.filter_filter]
        apply List.filter_eq_nil_iff.mpr
        intro r _
        cases hr : (r.agentId == x && r.completedAt == none) <;> simp [hr]
      rw [hnil]
      simp
    · have hlast : (List.filter (fun r => r.agentId == x && r.completedAt == none)
          [({ id := db.nextId, agentId := aid, state := state, createdAt := now,
              expiresAt := now + STATE_EXPIRATION_MS } : VerificationRequest)]) = [] := by
        have haidx : (aid == x) = false := by
          simp [Ne.symm hx]
        simp [List.filter, haidx]
      rw [hlast]
      simp only [List.length_nil, Nat.add_zero]
      have hsub : List.Sublist
          ((db.requests.filter (fun r => !(r.agentId == aid && r.completedAt == none))).filter
            (fun r => r.agentId == x && r.completedAt == none))
          (db.requests.filter (fun r => r.agentId == x && r.completedAt == none)) :=
        (List.filter_sublist db.requests).filter _
      exact le_trans hsub.length_le (h x)

/-- C1: after any sequence of StartVerification calls from a state
satisfying the single-pending invariant, every agent still has at most one
uncompleted VerificationRequest: a successful start first deletes all
uncompleted requests of the resolved agent and appends exactly one new
request, and a failing start leaves the database unchanged. -/
theorem start_invariant_single_pending :
    (∀ calls db, AtMostOnePending db → AtMostOnePending (applyStarts calls db)) ∧
    (∀ env apiKey now state db url t m,
      (startVerification env apiKey now state db).2 = .ok url t m →
      ∃ aid, verifyApiKey db apiKey = some aid ∧
        (startVerification env apiKey now state db).1.requests =
          db.requests.filter (fun r => !(r.agentId == aid && r.completedAt == none))
            ++ [{ id := db.nextId, agentId := aid, state := state, createdAt := now,
                  expiresAt := now + STATE_EXPIRATION_MS }]) ∧
    (∀ env apiKey now state db e,
      (startVerification env apiKey now state db).2 = .err e →
      (startVerification env apiKey now state db).1 = db) := by
  refine ⟨?_, ?_, ?_⟩
  · intro calls
    induction calls with
    | nil =>
      intro db h
      exact h
    | cons c cs ih =>
      intro db h
      exact ih _ (atMostOnePending_start c.env c.apiKey c.now c.state db h)
  · intro env apiKey now state db url t m h
    rcases startVerification_cases env apiKey now state db with ⟨e, heq⟩ | ⟨aid, hv, heq⟩
    · rw [heq] at h
      simp at h
    · refine ⟨aid, hv, ?_⟩
      rw [heq]
  · intro env apiKey now state db e h
    rcases startVerification_cases env apiKey now state db with ⟨e2, heq⟩ | ⟨aid, hv, heq⟩
    · rw [heq]
    · rw [heq] at h
      simp at h

set_option maxRecDepth 4000 in
/-- Witness for C1 at concrete inputs: two successive starts for the same
agent leave the invariant intact, and a start with a bad credential leaves
the database untouched. -/
theorem start_invariant_single_pending_witness :
    AtMostOnePending (applyStarts
      [{ env := exEnv, apiKey := "key1", now := 1000, state := "S1" },
       { env := exEnv, apiKey := "key1", now := 2000, state := "S2" }] exDB) ∧
    (startVerification exEnv "bad" 1000 "S" exDB).1 = exDB := by
  constructor
  · exact start_invariant_single_pending.1 _ exDB
      (fun aid => le_trans (List.length_filter_le _ _) (by decide))
  · exact start_invariant_single_pending.2.2 exEnv "bad" 1000 "S" exDB "Invalid API key"
      (by decide)

end LinkClaws
